import Mathlib

/-!
Verification of the kubebao secret-management system.

Shallow embedding of the Go sources:
  * Go strings are modelled as `List Char` (`Str`); byte-level slicing in the
    source only ever happens on ASCII identifiers, so character lists are a
    faithful model.
  * Go maps that the code iterates over are modelled as association lists in a
    fixed order (Go's iteration order is unspecified; the embedding fixes one).
  * Unbounded `for` loops are modelled with an explicit fuel parameter; a
    `none` result for every fuel value models divergence of the loop.
  * Calls into external collaborators (the OpenBao HTTP API, JSON/YAML
    decoding, `time.ParseDuration`, SHA-256) are modelled as oracle
    parameters: the theorems quantify over every possible outcome of the
    collaborator.
  * Stateful methods are modelled by explicit state passing; `time.Now()`
    becomes an explicit instant parameter.
-/

namespace Kubebao

/-- Go strings, modelled as lists of characters. -/
abbrev Str := List Char

/-- Convert a Lean string literal to the `Str` model. -/
def str (s : String) : Str := s.data

/-! ## internal/csi/secrets.go — `indexOf` and `replaceAll` (controller half) -/

/-- `indexOf(s, substr)` from the source: returns the first index `i` with
`s[i:i+len(substr)] == substr` (the loop runs for `i <= len(s)-len(substr)`),
or -1 (modelled as `none`) if there is none. -/
def indexOfAux (substr : Str) : Str → Option Nat
  | [] => if substr.isPrefixOf ([] : Str) then some 0 else none
  | c :: t =>
    if substr.isPrefixOf (c :: t) then some 0
    else (indexOfAux substr t).map (· + 1)

/-- Argument order of the Go function `indexOf(s, substr)`. -/
def indexOf (s substr : Str) : Option Nat := indexOfAux substr s

/-- One iteration of the `replaceAll` loop body: replace the first occurrence
of `old` (if any), yielding `newS`. -/
def replaceStep (s old nw : Str) : Str :=
  match indexOf s old with
  | none => s
  | some idx => s.take idx ++ nw ++ s.drop (idx + old.length)

/-- `replaceAll(s, old, new)` from the source.  The Go loop repeatedly forms
`newS` by replacing the first occurrence of `old` and stops when `newS == s`.
The loop is unbounded, so it is modelled with fuel: `none` means the loop is
still running after `fuel` iterations. -/
def replaceAll : Nat → Str → Str → Str → Option Str
  | 0, _, _, _ => none
  | fuel + 1, s, old, nw =>
    let newS := replaceStep s old nw
    if newS = s then some s else replaceAll fuel newS old nw

example : indexOf (str "xa") (str "a") = some 1 := by decide
example : replaceAll 5 (str "aab") (str "ab") (str "b") = some (str "b") := by decide
example : replaceAll 3 (str "a") (str "a") (str "xa") = none := by decide

/-- `a` occurs as a contiguous substring of `b`. -/
def occursIn (a b : Str) : Prop := ∃ p q, b = p ++ a ++ q

/-! ## The spec's reading of template substitution

Modelled from the spec: "substitute each declared output field by replacing
literal `\x7b\x7b .Data.<name> \x7d\x7d` placeholders with the corresponding
source field's string form — this is literal substitution ... and unmatched
placeholders are left verbatim".  A single left-to-right pass over the
template replacing each literal occurrence of the placeholder, the semantics
of Go's `strings.ReplaceAll`.  This definition follows the claim's words and
exists only to be compared against the source's `replaceAll`. -/
def onePassReplace : Nat → Str → Str → Str → Str
  | 0, _, _, s => s
  | _ + 1, _, _, [] => []
  | fuel + 1, old, nw, c :: t =>
    if !old.isEmpty && old.isPrefixOf (c :: t) then
      nw ++ onePassReplace fuel old nw (List.drop old.length (c :: t))
    else
      c :: onePassReplace fuel old nw t

/-- Single-pass literal replacement of every occurrence of `old` by `nw`
(the claim's description of the substitution).  `s.length` fuel suffices
because each step consumes at least one character of `s`. -/
def specReplaceAll (s old nw : Str) : Str := onePassReplace s.length old nw s

example : specReplaceAll (str "aab") (str "ab") (str "b") = str "ab" := by decide

/-! ## internal/csi/secrets.go — `applyTemplate` -/

/-- Association-list membership test, modelling a Go map index `m[k]`. -/
def assocFind {α : Type} (m : List (Str × α)) (k : Str) : Option α :=
  match m with
  | [] => none
  | (k', v) :: t => if k' = k then some v else assocFind t k

/-- Go map assignment `m[k] = v`: overwrite the binding if present,
otherwise add it. -/
def assocSet {α : Type} (m : List (Str × α)) (k : Str) (v : α) : List (Str × α) :=
  match m with
  | [] => [(k, v)]
  | (k', v') :: t => if k' = k then (k, v) :: t else (k', v') :: assocSet t k v

/-- The placeholder text `fmt.Sprintf("\x7b\x7b .Data.%s \x7d\x7d", k)`
built by `applyTemplate`. -/
def placeholder (k : Str) : Str := str "\x7b\x7b .Data." ++ k ++ str " \x7d\x7d"

/-- `SecretTemplate` (api/v1alpha1): the two template maps; `none` models a
nil map. -/
structure SecretTemplate where
  data : Option (List (Str × Str))
  stringData : Option (List (Str × Str))

/-- The inner loop of `applyTemplate` for one declared output field: fold the
source fields over the template string, substituting each field's placeholder
with `replaceAll`.  Source values are carried in their `fmt.Sprintf("%v")`
string form.  `none` propagates divergence of `replaceAll`. -/
def renderTemplateField (fuel : Nat) (sourceData : List (Str × Str)) (tmpl : Str) :
    Option Str :=
  sourceData.foldlM (fun value kv => replaceAll fuel value (placeholder kv.1) kv.2) tmpl

/-- `applyTemplate(data, template, sourceData)` from the source: start from a
copy of `data`, then render every `StringData` entry and every `Data` entry
into the result map. -/
def applyTemplate (fuel : Nat) (data : List (Str × Str)) (template : SecretTemplate)
    (sourceData : List (Str × Str)) : Option (List (Str × Str)) := do
  let step := fun (result : List (Str × Str)) (entry : Str × Str) => do
    let value ← renderTemplateField fuel sourceData entry.2
    pure (assocSet result entry.1 value)
  let r1 ← (template.stringData.getD []).foldlM step data
  (template.data.getD []).foldlM step r1

/-! ## Lemmas about `indexOf` and `replaceAll` -/

/-- A successful `isPrefixOf` test yields an append decomposition. -/
lemma prefixOf_decomp : ∀ {l₁ l₂ : Str}, l₁.isPrefixOf l₂ = true → ∃ t, l₂ = l₁ ++ t := by
  intro l₁
  induction l₁ with
  | nil => intro l₂ _; exact ⟨l₂, rfl⟩
  | cons a as ih =>
    intro l₂ h
    cases l₂ with
    | nil => simp [List.isPrefixOf] at h
    | cons b bs =>
      simp only [List.isPrefixOf, Bool.and_eq_true, beq_iff_eq] at h
      obtain ⟨hab, hrest⟩ := h
      obtain ⟨t, ht⟩ := ih hrest
      exact ⟨t, by simp [hab, ht]⟩

/-- `indexOf s old = some i` decomposes `s` around an occurrence of `old`
at position `i`. -/
lemma indexOf_some_decomp :
    ∀ (s old : Str) (i : Nat), indexOf s old = some i →
      s = s.take i ++ old ++ s.drop (i + old.length) := by
  intro s
  induction s with
  | nil =>
    intro old i h
    unfold indexOf indexOfAux at h
    by_cases hp : old.isPrefixOf ([] : Str)
    · obtain ⟨t, ht⟩ := prefixOf_decomp hp
      have hnil : old = [] := by
        cases old with
        | nil => rfl
        | cons x xs => simp at ht
      simp [hp] at h
      simp [hnil, ← h]
    · simp [hp] at h
  | cons c t ih =>
    intro old i h
    unfold indexOf indexOfAux at h
    by_cases hp : old.isPrefixOf (c :: t)
    · simp [hp] at h
      obtain ⟨rest, hr⟩ := prefixOf_decomp hp
      subst h
      simp [hr]
    · simp [hp, Option.map_eq_some'] at h
      obtain ⟨j, hj, rfl⟩ := h
      have hdec := ih old j hj
      have harith : j + 1 + old.length = (j + old.length) + 1 := by omega
      rw [harith]
      simp only [List.take_succ_cons, List.drop_succ_cons, List.cons_append]
      exact congrArg (c :: ·) hdec

/-- When the `replaceAll` loop terminates with `old ≠ new`, the result
contains no occurrence of `old` at all: the loop only stops once
`indexOf` fails. -/
lemma replaceAll_exhaustive :
    ∀ (fuel : Nat) (s old nw r : Str), old ≠ nw →
      replaceAll fuel s old nw = some r → indexOf r old = none := by
  intro fuel
  induction fuel with
  | zero => intro s old nw r _ h; simp [replaceAll] at h
  | succ m ih =>
    intro s old nw r hne h
    simp only [replaceAll] at h
    by_cases hstep : replaceStep s old nw = s
    · rw [if_pos hstep] at h
      obtain rfl : s = r := by simpa using h
      cases hidx : indexOf s old with
      | none => rfl
      | some i =>
        exfalso
        have hdecomp := indexOf_some_decomp s old i hidx
        unfold replaceStep at hstep
        rw [hidx] at hstep
        have h2 : s.take i ++ nw ++ s.drop (i + old.length)
            = s.take i ++ old ++ s.drop (i + old.length) := hstep.trans hdecomp
        have h3 : s.take i ++ nw = s.take i ++ old := List.append_cancel_right h2
        exact hne (List.append_cancel_left h3).symm
    · rw [if_neg hstep] at h
      exact ih _ old nw r hne h

/-- If `old` does not occur in `s`, the loop stops at once and leaves `s`
verbatim. -/
lemma replaceAll_of_indexOf_none (fuel : Nat) (s old nw : Str)
    (h : indexOf s old = none) : replaceAll (fuel + 1) s old nw = some s := by
  simp [replaceAll, replaceStep, h]

/-- A template in which no source field's placeholder occurs is rendered
verbatim. -/
lemma renderTemplateField_verbatim (fuel : Nat) (sourceData : List (Str × Str))
    (tmpl : Str) (h : ∀ kv ∈ sourceData, indexOf tmpl (placeholder kv.1) = none) :
    renderTemplateField (fuel + 1) sourceData tmpl = some tmpl := by
  unfold renderTemplateField
  induction sourceData with
  | nil => rfl
  | cons kv t ih =>
    simp only [List.foldlM_cons]
    rw [replaceAll_of_indexOf_none fuel tmpl (placeholder kv.1) kv.2 (h kv (by simp))]
    exact ih fun x hx => h x (by simp [hx])

/-! ## C10 machinery: the `replaceAll` loop diverges when the replacement
contains the pattern.  Starting from `"a"` with `old = "a"`, `new = "xa"`,
the `n`-th iterate is `'x'^n ++ "a"`, which still contains `"a"`. -/

lemma indexOfAux_cons (sub : Str) (c : Char) (t : Str) :
    indexOfAux sub (c :: t)
      = if sub.isPrefixOf (c :: t) then some 0 else (indexOfAux sub t).map (· + 1) := rfl

lemma indexOf_replicate_x (n : Nat) :
    indexOf (List.replicate n 'x' ++ ['a']) ['a'] = some n := by
  induction n with
  | zero => decide
  | succ m ih =>
    have hpf : (['a'] : Str).isPrefixOf ('x' :: (List.replicate m 'x' ++ ['a'])) = false := rfl
    unfold indexOf at ih ⊢
    rw [List.replicate_succ, List.cons_append, indexOfAux_cons, if_neg (by simp [hpf]), ih]
    rfl

lemma replaceStep_replicate (n : Nat) :
    replaceStep (List.replicate n 'x' ++ ['a']) ['a'] ['x', 'a']
      = List.replicate (n + 1) 'x' ++ ['a'] := by
  unfold replaceStep
  rw [indexOf_replicate_x]
  have ht : (List.replicate n 'x' ++ ['a']).take n = List.replicate n 'x' :=
    List.take_left' (List.length_replicate n 'x')
  have hd : (List.replicate n 'x' ++ ['a']).drop (n + 1) = [] := by
    apply List.drop_eq_nil_of_le
    simp
  simp only [List.length_cons, List.length_nil, ht]
  rw [show n + (0 + 1) = n + 1 from by omega, hd]
  simp [List.replicate_succ', List.append_assoc]

lemma replaceAll_replicate_none :
    ∀ (fuel n : Nat), replaceAll fuel (List.replicate n 'x' ++ ['a']) ['a'] ['x', 'a'] = none := by
  intro fuel
  induction fuel with
  | zero => intro n; rfl
  | succ m ih =>
    intro n
    simp only [replaceAll]
    rw [replaceStep_replicate n]
    have hne : (List.replicate (n + 1) 'x' ++ ['a'] : Str) ≠ List.replicate n 'x' ++ ['a'] := by
      intro h
      have := congrArg List.length h
      simp at this
    rw [if_neg hne]
    exact ih (n + 1)

/-- C10: the claim states that `replaceAll(s, old, new)` terminates for every
triple of input strings, including when `new` contains `old`.  The code does
not: on `s = "a"`, `old = "a"`, `new = "xa"` the loop replaces the first
occurrence forever (`"a" → "xa" → "xxa" → …`), never reaching the
`newS == s` exit.  In the fuel model, every fuel bound is exhausted. -/
theorem C10_replaceAll_diverges (fuel : Nat) :
    replaceAll fuel ['a'] ['a'] ['x', 'a'] = none :=
  replaceAll_replicate_none fuel 0

/-- C5 counterexample: the claim says each declared output field is produced
by replacing every literal occurrence of the placeholder with the source
field's string form, with no other transformation.  The template
`"\x7b\x7b" + placeholder(a)` contains exactly one literal occurrence of
`placeholder(a) = "\x7b\x7b .Data.a \x7d\x7d"`; single literal replacement by
the value `" .Data.a \x7d\x7dX"` yields `"\x7b\x7b .Data.a \x7d\x7dX"`.  The
code's fixpoint loop rescans from the start, consumes a second occurrence
formed across the replacement boundary, and outputs `" .Data.a \x7d\x7dXX"`
instead. -/
theorem C5_counterexample :
    applyTemplate 5 []
        { data := none, stringData := some [(str "out", str "\x7b\x7b\x7b\x7b .Data.a \x7d\x7d")] }
        [(str "a", str " .Data.a \x7d\x7dX")]
      = some [(str "out", str " .Data.a \x7d\x7dXX")]
    ∧ specReplaceAll (str "\x7b\x7b\x7b\x7b .Data.a \x7d\x7d") (placeholder (str "a"))
        (str " .Data.a \x7d\x7dX")
      = str "\x7b\x7b .Data.a \x7d\x7dX"
    ∧ str " .Data.a \x7d\x7dXX" ≠ str "\x7b\x7b .Data.a \x7d\x7dX" :=
  ⟨by decide, by decide, by decide⟩

/-- C5 (amended): each declared output field is produced by folding over the
source fields and, per field, exhaustively re-replacing the first occurrence
of its placeholder until none remains (a fixpoint loop, not a single literal
pass): whenever the loop terminates with placeholder ≠ value, the produced
field contains no occurrence of the placeholder at all, and a template in
which no source field's placeholder occurs is left verbatim (in particular,
placeholders naming fields absent from the source are untouched). -/
theorem C5_template_substitution (fuel : Nat) (sourceData : List (Str × Str)) (tmpl : Str) :
    (∀ s old nw r, old ≠ nw → replaceAll fuel s old nw = some r → indexOf r old = none)
    ∧ ((∀ kv ∈ sourceData, indexOf tmpl (placeholder kv.1) = none) →
        renderTemplateField (fuel + 1) sourceData tmpl = some tmpl) :=
  ⟨fun s old nw r hne h => replaceAll_exhaustive fuel s old nw r hne h,
   fun h => renderTemplateField_verbatim fuel sourceData tmpl h⟩

theorem C5_template_substitution_witness :
    indexOf (str "bb") (str "a") = none
    ∧ renderTemplateField 3 [(str "a", str "v")] (str "t") = some (str "t") :=
  ⟨(C5_template_substitution 2 [(str "a", str "v")] (str "t")).1
      (str "ab") (str "a") (str "b") (str "bb") (by decide) (by decide),
   (C5_template_substitution 2 [(str "a", str "v")] (str "t")).2 (by decide)⟩

/-! ## unnamed/part_006 — KMS plugin server (package kms) -/

/-- The slice of `TransitKeyInfo` observed by the health check. -/
structure KeyInfo where
  latestVersion : Nat

/-- The lock-guarded mutable state of the KMS `Server`: current key
identifier and health flag. -/
structure KmsState where
  keyID : Str
  healthy : Bool

/-- `fmt.Sprintf("%s:v%d", keyName, latestVersion)`. -/
def keyIDFor (keyName : Str) (v : Nat) : Str := keyName ++ str ":v" ++ str (Nat.repr v)

/-- `Server.performHealthCheck`: on a failed `GetKeyInfo` mark unhealthy and
keep the stored `keyID`; on success recompute the key identifier, store it if
it changed, and mark healthy.  The `GetKeyInfo` call is an oracle for the
backend. -/
def performHealthCheck (keyName : Str) (getKeyInfo : Except Str KeyInfo)
    (st : KmsState) : KmsState :=
  match getKeyInfo with
  | .error _ => { st with healthy := false }
  | .ok info =>
    let newKeyID := keyIDFor keyName info.latestVersion
    { keyID := if newKeyID ≠ st.keyID then newKeyID else st.keyID, healthy := true }

/-- `v2.StatusResponse` fields produced by `Server.Status`. -/
structure StatusResponse where
  version : Str
  healthz : Str
  keyId : Str

/-- `Server.Status`: reports the protocol version, the health string and the
stored `keyID`; no side effects. -/
def Status (st : KmsState) : StatusResponse :=
  { version := str "v2"
  , healthz := if st.healthy then str "ok" else str "unhealthy"
  , keyId := st.keyID }

/-- A successful health check always ends with the freshly computed key
identifier stored, whether or not it differed from the previous one. -/
lemma performHealthCheck_ok (keyName : Str) (info : KeyInfo) (st : KmsState) :
    performHealthCheck keyName (.ok info) st
      = { keyID := keyIDFor keyName info.latestVersion, healthy := true } := by
  by_cases h : keyIDFor keyName info.latestVersion = st.keyID <;>
    simp [performHealthCheck, h]

/-- C2: a failed health check marks the plugin unhealthy and leaves the
stored keyID unchanged; a successful one marks it healthy and stores
`name:v<latestVersion>`; hence when the backend's latest key version
increments from `n` to `n+1` between health checks, the keyID reported by
`Status` changes from `name:vn` to `name:v(n+1)`. -/
theorem C2_health_check_key_rotation (keyName : Str) (st : KmsState) :
    (∀ e, performHealthCheck keyName (.error e) st = { keyID := st.keyID, healthy := false })
    ∧ (∀ info, performHealthCheck keyName (.ok info) st
        = { keyID := keyIDFor keyName info.latestVersion, healthy := true })
    ∧ (∀ n : Nat,
        (Status (performHealthCheck keyName (.ok ⟨n⟩) st)).keyId = keyIDFor keyName n
        ∧ (Status (performHealthCheck keyName (.ok ⟨n + 1⟩)
              (performHealthCheck keyName (.ok ⟨n⟩) st))).keyId = keyIDFor keyName (n + 1)
        ∧ (Status (performHealthCheck keyName (.ok ⟨n⟩) st)).healthz = str "ok") := by
  refine ⟨fun e => rfl, fun info => performHealthCheck_ok keyName info st, fun n => ⟨?_, ?_, ?_⟩⟩
  · rw [performHealthCheck_ok]; rfl
  · rw [performHealthCheck_ok]; rfl
  · rw [performHealthCheck_ok]; rfl

/-! ## internal/openbao/client.go — `Client.RefreshToken`

Durations and instants are `Int` nanoseconds (Go's `time.Duration` /
`time.Time` arithmetic); `none` for `tokenExpiry` models the zero
`time.Time` (`expiry.IsZero()`). -/

def nsPerSecond : Int := 1000000000

/-- `5 * time.Minute` in nanoseconds. -/
def fiveMinutes : Int := 300000000000

/-- The slice of `secret.Auth` the token-refresh path reads. -/
structure TokenAuth where
  leaseDuration : Int
deriving DecidableEq

/-- Outcome of `c.client.Auth().Token().RenewSelfWithContext(ctx, 0)`: the
code falls back to re-authentication unless the call returned without error
with a non-nil secret carrying non-nil auth info. -/
inductive RenewOutcome where
  | failed
  | nilSecret
  | nilAuth
  | renewed (auth : TokenAuth)
deriving DecidableEq

/-- The expiry-tracking state of the backend `Client`. -/
structure ClientState where
  tokenExpiry : Option Int
deriving DecidableEq

/-- `Client.RefreshToken`: no-op unless an expiry is recorded and at most
5 minutes remain; otherwise renew the lease, and only on renewal failure
re-authenticate.  Returns the new state, whether renewal was attempted,
whether re-authentication was attempted, and the call's result.  The renewal
and re-authentication outcomes are backend oracles (`authenticate` only
mutates state on success, so its oracle yields the successor state). -/
def RefreshToken (now : Int) (st : ClientState)
    (renew : RenewOutcome) (reauth : Except Str ClientState) :
    ClientState × Bool × Bool × Except Str Unit :=
  match st.tokenExpiry with
  | none => (st, false, false, .ok ())
  | some expiry =>
    if expiry - now > fiveMinutes then (st, false, false, .ok ())
    else
      match renew with
      | .renewed auth =>
        ({ tokenExpiry := some (now + auth.leaseDuration * nsPerSecond) }, true, false, .ok ())
      | _ =>
        match reauth with
        | .ok st2 => (st2, true, true, .ok ())
        | .error e => (st, true, true, .error e)

/-- When renewal does not produce auth info, the call falls through to the
re-authentication oracle. -/
lemma refreshToken_fallback (now : Int) (st : ClientState) (expiry : Int)
    (renew : RenewOutcome) (reauth : Except Str ClientState)
    (h : st.tokenExpiry = some expiry) (hnear : ¬(expiry - now > fiveMinutes))
    (hfail : ∀ auth, renew ≠ .renewed auth) :
    RefreshToken now st renew reauth
      = match reauth with
        | .ok st2 => (st2, true, true, .ok ())
        | .error e => (st, true, true, .error e) := by
  cases renew with
  | renewed auth => exact absurd rfl (hfail auth)
  | failed => simp [RefreshToken, h, hnear]
  | nilSecret => simp [RefreshToken, h, hnear]
  | nilAuth => simp [RefreshToken, h, hnear]

/-- C8: with no expiry recorded, or more than 5 minutes remaining, the call
returns nil and changes nothing (no renewal, no re-authentication);
otherwise renewal is attempted first and re-authentication happens exactly
when renewal fails. -/
theorem C8_refresh_token_threshold (now : Int) (st : ClientState)
    (renew : RenewOutcome) (reauth : Except Str ClientState) :
    (st.tokenExpiry = none → RefreshToken now st renew reauth = (st, false, false, .ok ()))
    ∧ (∀ expiry, st.tokenExpiry = some expiry → expiry - now > fiveMinutes →
        RefreshToken now st renew reauth = (st, false, false, .ok ()))
    ∧ (∀ expiry, st.tokenExpiry = some expiry → ¬(expiry - now > fiveMinutes) →
        (RefreshToken now st renew reauth).2.1 = true
        ∧ (∀ auth, renew = .renewed auth →
            RefreshToken now st renew reauth
              = ({ tokenExpiry := some (now + auth.leaseDuration * nsPerSecond) },
                  true, false, .ok ()))
        ∧ ((∀ auth, renew ≠ .renewed auth) →
            (RefreshToken now st renew reauth).2.2.1 = true
            ∧ (∀ st2, reauth = .ok st2 →
                RefreshToken now st renew reauth = (st2, true, true, .ok ()))
            ∧ (∀ e, reauth = .error e →
                RefreshToken now st renew reauth = (st, true, true, .error e)))) := by
  refine ⟨fun h => by simp [RefreshToken, h], fun expiry h hfar => by simp [RefreshToken, h, hfar],
    fun expiry h hnear => ⟨?_, ?_, ?_⟩⟩
  · cases renew with
    | renewed auth => simp [RefreshToken, h, hnear]
    | failed => cases reauth <;> simp [RefreshToken, h, hnear]
    | nilSecret => cases reauth <;> simp [RefreshToken, h, hnear]
    | nilAuth => cases reauth <;> simp [RefreshToken, h, hnear]
  · rintro auth rfl
    simp [RefreshToken, h, hnear]
  · intro hfail
    have hfb := refreshToken_fallback now st expiry renew reauth h hnear hfail
    refine ⟨?_, fun st2 hst2 => ?_, fun e he => ?_⟩
    · cases reauth <;> simp [hfb]
    · subst hst2; simp [hfb]
    · subst he; simp [hfb]

theorem C8_refresh_token_threshold_witness :
    RefreshToken 0 ⟨some 100⟩ (.renewed ⟨60⟩) (.ok ⟨none⟩)
      = (⟨some (0 + 60 * nsPerSecond)⟩, true, false, .ok ())
    ∧ RefreshToken 0 ⟨some 400000000000⟩ .failed (.ok ⟨none⟩) = (⟨some 400000000000⟩, false, false, .ok ()) :=
  ⟨((C8_refresh_token_threshold 0 ⟨some 100⟩ (.renewed ⟨60⟩) (.ok ⟨none⟩)).2.2
      100 rfl (by decide)).2.1 ⟨60⟩ rfl,
   (C8_refresh_token_threshold 0 ⟨some 400000000000⟩ .failed (.ok ⟨none⟩)).2.1
      400000000000 rfl (by decide)⟩

/-! ## internal/csi/secrets.go — `parseRefreshInterval` and the `Reconcile`
requeue decision (package controller, BaoSecret) -/

/-- `time.Minute` in nanoseconds. -/
def minuteNs : Int := 60000000000

/-- `defaultRefreshInterval = time.Hour` in nanoseconds. -/
def hourNs : Int := 3600000000000

/-- `30 * time.Second` in nanoseconds. -/
def thirtySeconds : Int := 30000000000

/-- `BaoSecretReconciler.parseRefreshInterval`: empty string → 1h default;
unparsable → 1h default; anything parsed below one minute is clamped to one
minute.  `time.ParseDuration` is a standard-library collaborator, modelled
as an oracle returning nanoseconds. -/
def parseRefreshInterval (parseDuration : Str → Option Int) (interval : Str) : Int :=
  if interval = [] then hourNs
  else
    match parseDuration interval with
    | none => hourNs
    | some d => if d < minuteNs then minuteNs else d

/-- Outcome of fetching the `BaoSecret` at the start of `Reconcile`,
carrying the fields the control flow reads. -/
inductive GetOutcome where
  | notFound
  | failed (e : Str)
  | found (deletionTimestampSet : Bool) (hasFinalizer : Bool)
      (suspendSync : Bool) (refreshInterval : Str)

/-- `ctrl.Result`: `none` models the zero result (no requeue). -/
structure CtrlResult where
  requeueAfter : Option Int
deriving DecidableEq

/-- `BaoSecretReconciler.Reconcile`, branch structure of the requeue
decision.  The cluster-API update calls and `syncSecret` are oracles. -/
def Reconcile (parseDuration : Str → Option Int) (g : GetOutcome)
    (updateOutcome : Except Str Unit) (statusUpdateOutcome : Except Str Unit)
    (syncOutcome : Except Str Unit) : Except Str CtrlResult :=
  match g with
  | .notFound => .ok ⟨none⟩
  | .failed e => .error e
  | .found deletionSet hasFinalizer suspend interval =>
    if deletionSet then
      if hasFinalizer then
        match updateOutcome with
        | .error e => .error e
        | .ok () => .ok ⟨none⟩
      else .ok ⟨none⟩
    else
      match (if hasFinalizer then .ok () else updateOutcome : Except Str Unit) with
      | .error e => .error e
      | .ok () =>
        if suspend then
          match statusUpdateOutcome with
          | .error e => .error e
          | .ok () => .ok ⟨none⟩
        else
          match syncOutcome with
          | .error _ =>
            match statusUpdateOutcome with
            | .error e => .error e
            | .ok () => .ok ⟨some thirtySeconds⟩
          | .ok () =>
            match statusUpdateOutcome with
            | .error e => .error e
            | .ok () => .ok ⟨some (parseRefreshInterval parseDuration interval)⟩

/-- C7: empty/unparsable refresh intervals default to exactly 1 hour,
parsable intervals below one minute are clamped to exactly one minute,
anything else is used as-is, and the successful-reconcile requeue delay is
exactly this value. -/
theorem C7_refresh_interval (parseDuration : Str → Option Int) (interval : Str) :
    (interval = [] → parseRefreshInterval parseDuration interval = hourNs)
    ∧ (parseDuration interval = none → parseRefreshInterval parseDuration interval = hourNs)
    ∧ (∀ d, interval ≠ [] → parseDuration interval = some d → d < minuteNs →
        parseRefreshInterval parseDuration interval = minuteNs)
    ∧ (∀ d, interval ≠ [] → parseDuration interval = some d → minuteNs ≤ d →
        parseRefreshInterval parseDuration interval = d)
    ∧ (∀ hasFinalizer,
        Reconcile parseDuration (.found false hasFinalizer false interval)
            (.ok ()) (.ok ()) (.ok ())
          = .ok ⟨some (parseRefreshInterval parseDuration interval)⟩) := by
  refine ⟨fun h => by simp [parseRefreshInterval, h], fun h => ?_,
    fun d hne h hlt => by simp [parseRefreshInterval, hne, h, hlt],
    fun d hne h hge => by simp [parseRefreshInterval, hne, h, not_lt.mpr hge],
    fun hasFinalizer => by cases hasFinalizer <;> simp [Reconcile]⟩
  by_cases hne : interval = []
  · simp [parseRefreshInterval, hne]
  · simp [parseRefreshInterval, hne, h]

theorem C7_refresh_interval_witness :
    parseRefreshInterval (fun _ => some 30000000000) (str "30s") = minuteNs
    ∧ Reconcile (fun _ => some 30000000000) (.found false true false (str "30s"))
        (.ok ()) (.ok ()) (.ok ())
      = .ok ⟨some (parseRefreshInterval (fun _ => some 30000000000) (str "30s"))⟩ :=
  ⟨(C7_refresh_interval (fun _ => some 30000000000) (str "30s")).2.2.1
      30000000000 (by decide) rfl (by decide),
   (C7_refresh_interval (fun _ => some 30000000000) (str "30s")).2.2.2.2 true⟩

/-! ## api/v1alpha1 (unnamed/part_010) and internal/csi/secrets.go
(controller half) — BaoPolicy and `syncPolicy` -/

/-- `PolicyRule` (api/v1alpha1).  `AllowedParameters` is a Go map; the
embedding fixes an iteration order with an association list. -/
structure PolicyRule where
  path : Str
  capabilities : List Str
  allowedParameters : List (Str × List Str)
  deniedParameters : List Str
  requiredParameters : List Str
  minWrappingTTL : Str
  maxWrappingTTL : Str
deriving DecidableEq

structure BaoPolicySpec where
  policyName : Str
  rules : List PolicyRule
deriving DecidableEq

structure BaoPolicyStatus where
  policyVersion : Str
  appliedPolicyName : Str
deriving DecidableEq

structure BaoPolicy where
  name : Str
  spec : BaoPolicySpec
  status : BaoPolicyStatus
deriving DecidableEq

/-- The `for i, x` / `if i > 0 \x7b … += ", " \x7d` comma-join pattern of
`ToHCL`. -/
def commaJoin (items : List Str) : Str :=
  match items with
  | [] => []
  | h :: t => t.foldl (fun acc x => acc ++ str ", " ++ x) h

/-- `"\"" + s + "\""`. -/
def quoted (s : Str) : Str := str "\x22" ++ s ++ str "\x22"

/-- The HCL block `ToHCL` emits for one rule. -/
def ruleHCL (rule : PolicyRule) : Str :=
  str "path \x22" ++ rule.path ++ str "\x22 \x7b\n"
  ++ str "  capabilities = [" ++ commaJoin (rule.capabilities.map quoted) ++ str "]\n"
  ++ (if rule.allowedParameters ≠ [] then
        str "  allowed_parameters = \x7b\n"
        ++ rule.allowedParameters.foldl (fun acc kv =>
              acc ++ str "    \x22" ++ kv.1 ++ str "\x22 = ["
                ++ commaJoin (kv.2.map quoted) ++ str "]\n") []
        ++ str "  \x7d\n"
      else [])
  ++ (if rule.deniedParameters ≠ [] then
        str "  denied_parameters = \x7b\n"
        ++ rule.deniedParameters.foldl (fun acc k =>
              acc ++ str "    \x22" ++ k ++ str "\x22 = []\n") []
        ++ str "  \x7d\n"
      else [])
  ++ (if rule.requiredParameters ≠ [] then
        str "  required_parameters = ["
          ++ commaJoin (rule.requiredParameters.map quoted) ++ str "]\n"
      else [])
  ++ (if rule.minWrappingTTL ≠ [] then
        str "  min_wrapping_ttl = \x22" ++ rule.minWrappingTTL ++ str "\x22\n" else [])
  ++ (if rule.maxWrappingTTL ≠ [] then
        str "  max_wrapping_ttl = \x22" ++ rule.maxWrappingTTL ++ str "\x22\n" else [])
  ++ str "\x7d\n\n"

/-- `BaoPolicy.ToHCL`: render the rule list into the backend's policy
syntax.  The `allowedParameters` association list represents ONE iteration-
order realization of the Go map `rule.AllowedParameters`: Go randomizes the
`range` order on every call, so the same map value is rendered by `ToHCL`
applied to any permutation of the list.  `sameRule`/`samePolicy` below
relate the realizations that denote the same Go value. -/
def ToHCL (p : BaoPolicy) : Str :=
  p.spec.rules.foldl (fun hcl rule => hcl ++ ruleHCL rule) []

/-- `BaoPolicy.GetPolicyName`. -/
def GetPolicyName (p : BaoPolicy) : Str :=
  if p.spec.policyName ≠ [] then p.spec.policyName else p.name

/-- `BaoPolicyReconciler.syncPolicy`: render, hash, skip the backend write
when the stored `PolicyVersion` already equals the hash, otherwise write the
document and update the status.  SHA-256 (`crypto/sha256` + truncation to 8
hex-encoded bytes) is a standard-library collaborator, modelled as the
oracle `hashHex8`; the returned list records every backend write performed
(the `WriteSecret` call is the only backend call in the reconcile). -/
def syncPolicy (hashHex8 : Str → Str) (writeOutcome : Except Str Unit) (p : BaoPolicy) :
    Except Str (BaoPolicy × List (Str × Str)) :=
  let policyHCL := ToHCL p
  let policyName := GetPolicyName p
  let version := hashHex8 policyHCL
  if p.status.policyVersion = version then
    .ok (p, [])
  else
    match writeOutcome with
    | .error e => .error (str "failed to write policy to OpenBao: " ++ e)
    | .ok () =>
      .ok ({ p with status := { policyVersion := version, appliedPolicyName := policyName } },
        [(str "sys/policies/acl/" ++ policyName, policyHCL)])

/-- The hash gate works for a FIXED order realization: when the rendered
document hashes to the stored `PolicyVersion` the sync performs no backend
write and changes nothing, and re-syncing the very same realization after a
successful sync performs zero writes.  This is only half the story: the Go
map order is not fixed across calls (see `C4_map_order_breaks_hash_gate`). -/
lemma syncPolicy_hash_gate (hashHex8 : Str → Str) (w w2 : Except Str Unit) (p : BaoPolicy) :
    (hashHex8 (ToHCL p) = p.status.policyVersion → syncPolicy hashHex8 w p = .ok (p, []))
    ∧ (∀ p1 writes, syncPolicy hashHex8 w p = .ok (p1, writes) →
        syncPolicy hashHex8 w2 p1 = .ok (p1, [])) := by
  have self : ∀ (w' : Except Str Unit) (q : BaoPolicy),
      q.status.policyVersion = hashHex8 (ToHCL q) → syncPolicy hashHex8 w' q = .ok (q, []) :=
    fun w' q hq => by simp [syncPolicy, hq]
  constructor
  · intro h
    exact self w p h.symm
  · intro p1 writes h
    by_cases hEq : p.status.policyVersion = hashHex8 (ToHCL p)
    · simp only [syncPolicy, if_pos hEq] at h
      obtain ⟨rfl, -⟩ : p = p1 ∧ writes = [] := by
        simpa using h
      exact self w2 p hEq
    · simp only [syncPolicy, if_neg hEq] at h
      cases w with
      | error e => simp at h
      | ok u =>
        simp only [Except.ok.injEq, Prod.mk.injEq] at h
        obtain ⟨h3, -⟩ := h
        subst h3
        exact self w2 _ rfl

/-- Two rules denote the same Go `PolicyRule` value when they differ only in
the iteration order recorded for the `AllowedParameters` map. -/
def sameRule (r₁ r₂ : PolicyRule) : Prop :=
  r₁.path = r₂.path ∧ r₁.capabilities = r₂.capabilities
  ∧ List.Perm r₁.allowedParameters r₂.allowedParameters
  ∧ r₁.deniedParameters = r₂.deniedParameters
  ∧ r₁.requiredParameters = r₂.requiredParameters
  ∧ r₁.minWrappingTTL = r₂.minWrappingTTL
  ∧ r₁.maxWrappingTTL = r₂.maxWrappingTTL

/-- Two policies denote the same Go `BaoPolicy` value — an identical rule
list — when their rules agree up to map iteration order. -/
def samePolicy (p₁ p₂ : BaoPolicy) : Prop :=
  p₁.name = p₂.name ∧ p₁.spec.policyName = p₂.spec.policyName
  ∧ List.Forall₂ sameRule p₁.spec.rules p₂.spec.rules
  ∧ p₁.status = p₂.status

/-- One rule whose `AllowedParameters` map has the two keys `a` and `b`,
recorded in the order a-then-b. -/
def c4RuleAB : PolicyRule :=
  ⟨str "s", [str "read"], [(str "a", []), (str "b", [])], [], [], [], []⟩

/-- The other iteration-order realization of the very same map value. -/
def c4RuleBA : PolicyRule :=
  ⟨str "s", [str "read"], [(str "b", []), (str "a", [])], [], [], [], []⟩

/-- The resource before its first reconcile. -/
def c4First : BaoPolicy := ⟨str "p", ⟨str "pn", [c4RuleAB]⟩, ⟨[], []⟩⟩

/-- The resource after the first successful sync (status populated). -/
def c4Synced : BaoPolicy :=
  ⟨str "p", ⟨str "pn", [c4RuleAB]⟩, ⟨ToHCL c4First, str "pn"⟩⟩

/-- The same resource as seen by the second reconcile when Go's map range
happens to visit `b` before `a`: identical rule list, other realization. -/
def c4Resynced : BaoPolicy :=
  ⟨str "p", ⟨str "pn", [c4RuleBA]⟩, ⟨ToHCL c4First, str "pn"⟩⟩

/-- C4: the claim — and the spec's idempotence invariant ("unchanged content
must short-circuit without a network call", zero write calls on the second
pass) — requires that re-reconciling an identical rule list performs no
backend write.  The code renders `allowed_parameters` by ranging over a Go
map whose iteration order is randomized per call and feeds the rendering to
the hash gate: the two order realizations of the same two-key map render
different documents, so the second reconcile can hash differently from the
stored `PolicyVersion` and issue a `sys/policies/acl` write, while the
identical realization is correctly gated.  The hash oracle is instantiated
with the identity function; SHA-256 likewise maps the distinct renderings to
distinct digests. -/
theorem C4_map_order_breaks_hash_gate :
    samePolicy c4Synced c4Resynced
    ∧ syncPolicy (fun s => s) (.ok ()) c4First
        = .ok (c4Synced, [(str "sys/policies/acl/pn", ToHCL c4First)])
    ∧ ToHCL c4Resynced ≠ ToHCL c4Synced
    ∧ syncPolicy (fun s => s) (.ok ()) c4Resynced
        = .ok ({ c4Resynced with status := ⟨ToHCL c4Resynced, str "pn"⟩ },
            [(str "sys/policies/acl/pn", ToHCL c4Resynced)])
    ∧ syncPolicy (fun s => s) (.ok ()) c4Synced = .ok (c4Synced, []) := by
  refine ⟨⟨rfl, rfl, ?_, rfl⟩, by rfl, by decide, by rfl, by rfl⟩
  exact List.Forall₂.cons
    ⟨rfl, rfl, List.Perm.swap _ _ _, rfl, rfl, rfl, rfl⟩ List.Forall₂.nil

/-! ## unnamed/part_007 and internal/csi/secrets.go (provider half) —
secret objects, permission parsing, `readFromOpenBao` -/

/-- `SecretObject` from the mount parameters.  `secretArgs` is a Go map,
modelled as an association list. -/
structure SecretObject where
  objectName : Str
  secretPath : Str
  secretKey : Str
  secretArgs : List (Str × Str)
  encoding : Str
  filePermission : Str
deriving DecidableEq

/-- `FetchedSecret`. -/
structure FetchedSecret where
  objectName : Str
  content : Str
  version : Str
  mode : Int
deriving DecidableEq

/-- An octal digit, as consumed by `fmt.Sscanf(perm, "%o", &mode)`. -/
def octalDigit (c : Char) : Bool := '0' ≤ c && c ≤ '7'

/-- The `%o` conversion of `fmt.Sscanf`: the longest octal-digit head of the
string; no digit at all is a scan failure that leaves `mode` at 0. -/
def octalScan (s : Str) : Option Int :=
  match s.takeWhile octalDigit with
  | [] => none
  | digits => some (digits.foldl (fun acc c => acc * 8 + ((c.toNat : Int) - 48)) 0)

/-- `parseFilePermission`: empty input defaults to 0644; one leading `"0"`
is trimmed; a scan failure (or an explicit 0) also defaults to 0644. -/
def parseFilePermission (perm : Str) : Int :=
  if perm = [] then 0o644
  else
    let p := if (str "0").isPrefixOf perm then perm.drop 1 else perm
    let mode := (octalScan p).getD 0
    if mode = 0 then 0o644 else mode

example : parseFilePermission (str "0600") = 0o600 := by decide
example : parseFilePermission [] = 0o644 := by decide
example : parseFilePermission (str "nope") = 0o644 := by decide

/-- `strings.Contains`. -/
def containsSub (s sub : Str) : Bool := (indexOf s sub).isSome

/-- The KV-v2 path normalization at the top of `readFromOpenBao`:
prepend the default `secret/data/` mount for bare paths, or splice `/data/`
after the mount segment (`strings.SplitN(path, "/", 2)`). -/
def normalizePath (path : Str) : Str :=
  if !(str "secret/").isPrefixOf path && !(str "kv/").isPrefixOf path then
    str "secret/data/" ++ path
  else if !containsSub path (str "/data/") then
    match indexOf path (str "/") with
    | none => path
    | some i => path.take i ++ str "/data/" ++ path.drop (i + 1)
  else path

example : normalizePath (str "myapp/db") = str "secret/data/myapp/db" := by decide
example : normalizePath (str "kv/db") = str "kv/data/db" := by decide
example : normalizePath (str "secret/data/db") = str "secret/data/db" := by decide

/-- `extractContent`: extract the requested field's string form, or the whole
map's JSON serialization; then apply the requested encoding.  `json.Marshal`
and base64 encoding are standard-library collaborators, modelled as the
oracles `marshal` and `b64`; map values are carried in their
`fmt.Sprintf("%v")` string form. -/
def extractContent (marshal : List (Str × Str) → Str) (b64 : Str → Str)
    (dataMap : List (Str × Str)) (obj : SecretObject) : Except Str Str :=
  let contentE : Except Str Str :=
    if obj.secretKey ≠ [] then
      match assocFind dataMap obj.secretKey with
      | none => .error (str "key " ++ obj.secretKey ++ str " not found in secret")
      | some value => .ok value
    else .ok (marshal dataMap)
  match contentE with
  | .error e => .error e
  | .ok content =>
    if obj.encoding = str "base64" then .ok (b64 content)
    else if obj.encoding = str "text" ∨ obj.encoding = [] then .ok content
    else .error (str "unsupported encoding: " ++ obj.encoding)

/-- The slice of `*api.Secret` the dynamic-write path reads. -/
structure BaoWriteResp where
  requestID : Str
  data : Option (List (Str × Str))

/-- The projections of `resp.Data` the static-read path takes: the nested
`"data"` map, the `metadata.version` number (as a string, `none` when any
cast fails), and the whole map used when `"data"` is absent. -/
structure ReadData where
  dataField : Option (List (Str × Str))
  metadataVersion : Option Str
  whole : List (Str × Str)

structure BaoReadResp where
  data : Option ReadData

/-- Failures of `readFromOpenBao`: an ordinary error return, or the runtime
panic of the unguarded `resp.RequestID[:8]` slice. -/
inductive FetchErr where
  | failure (msg : Str)
  | panicShortRequestID
deriving DecidableEq

/-- `readFromOpenBao`: normalize the path, then either write (dynamic
secrets, non-empty `SecretArgs`) or read (static secrets) through the
backend oracles.  The write path derives the version from
`resp.RequestID[:8]` with no length guard — Go string slicing panics when
the id is shorter than 8 bytes, modelled as `FetchErr.panicShortRequestID`;
the read path falls back to version `"1"`. -/
def readFromOpenBao (marshal : List (Str × Str) → Str) (b64 : Str → Str)
    (obj : SecretObject)
    (writeOutcome : Except Str (Option BaoWriteResp))
    (readOutcome : Except Str (Option BaoReadResp)) : Except FetchErr (Str × Str) :=
  let path := normalizePath obj.secretPath
  if obj.secretArgs ≠ [] then
    match writeOutcome with
    | .error e => .error (.failure (str "failed to write to path: " ++ e))
    | .ok none => .error (.failure (str "no data returned from path: " ++ path))
    | .ok (some resp) =>
      match resp.data with
      | none => .error (.failure (str "no data returned from path: " ++ path))
      | some d =>
        if resp.requestID.length < 8 then .error .panicShortRequestID
        else
          match extractContent marshal b64 d obj with
          | .error e => .error (.failure e)
          | .ok content => .ok (content, resp.requestID.take 8)
  else
    match readOutcome with
    | .error e => .error (.failure (str "failed to read path: " ++ e))
    | .ok none => .error (.failure (str "no data found at path: " ++ path))
    | .ok (some resp) =>
      match resp.data with
      | none => .error (.failure (str "no data found at path: " ++ path))
      | some rd =>
        match rd.dataField with
        | some d =>
          let version0 := rd.metadataVersion.getD []
          let version := if version0 = [] then str "1" else version0
          match extractContent marshal b64 d obj with
          | .error e => .error (.failure e)
          | .ok content => .ok (content, version)
        | none =>
          match extractContent marshal b64 rd.whole obj with
          | .error e => .error (.failure e)
          | .ok content => .ok (content, str "1")

/-- C9: on the dynamic-write path with a non-nil response carrying data, the
version token is exactly the first 8 characters of the request id, and the
derivation is total only when the id has at least 8 characters — a shorter
id panics (no guard, no default); the read path can never reach that panic
and defaults the version to `"1"` when no metadata version is reported. -/
theorem C9_dynamic_version_token (marshal : List (Str × Str) → Str) (b64 : Str → Str) :
    (∀ (obj : SecretObject) (resp : BaoWriteResp) (d : List (Str × Str))
        (readOutcome : Except Str (Option BaoReadResp)),
      obj.secretArgs ≠ [] → resp.data = some d →
      (resp.requestID.length < 8 →
        readFromOpenBao marshal b64 obj (.ok (some resp)) readOutcome
          = .error .panicShortRequestID)
      ∧ (8 ≤ resp.requestID.length → ∀ content,
          extractContent marshal b64 d obj = .ok content →
          readFromOpenBao marshal b64 obj (.ok (some resp)) readOutcome
            = .ok (content, resp.requestID.take 8)))
    ∧ (∀ (obj : SecretObject) (writeOutcome : Except Str (Option BaoWriteResp))
        (readOutcome : Except Str (Option BaoReadResp)),
      obj.secretArgs = [] →
      readFromOpenBao marshal b64 obj writeOutcome readOutcome
        ≠ .error .panicShortRequestID
      ∧ (∀ resp rd d content, readOutcome = .ok (some resp) → resp.data = some rd →
          rd.dataField = some d → rd.metadataVersion = none →
          extractContent marshal b64 d obj = .ok content →
          readFromOpenBao marshal b64 obj writeOutcome readOutcome
            = .ok (content, str "1"))) := by
  constructor
  · intro obj resp d readOutcome hargs hdata
    constructor
    · intro hshort
      simp [readFromOpenBao, hargs, hdata, hshort]
    · intro hlong content hc
      simp [readFromOpenBao, hargs, hdata, hc, Nat.not_lt.mpr hlong]
  · intro obj writeOutcome readOutcome hargs
    constructor
    · cases readOutcome with
      | error e => simp [readFromOpenBao, hargs]
      | ok o =>
        cases o with
        | none => simp [readFromOpenBao, hargs]
        | some resp =>
          cases hrd : resp.data with
          | none => simp [readFromOpenBao, hargs, hrd]
          | some rd =>
            cases hdf : rd.dataField with
            | none =>
              cases hec : extractContent marshal b64 rd.whole obj with
              | error e => simp [readFromOpenBao, hargs, hrd, hdf, hec]
              | ok c => simp [readFromOpenBao, hargs, hrd, hdf, hec]
            | some d =>
              cases hec : extractContent marshal b64 d obj with
              | error e => simp [readFromOpenBao, hargs, hrd, hdf, hec]
              | ok c => simp [readFromOpenBao, hargs, hrd, hdf, hec]
    · rintro resp rd d content rfl hrd hdf hmv hc
      simp [readFromOpenBao, hargs, hrd, hdf, hmv, hc, Option.getD]

theorem C9_dynamic_version_token_witness :
    readFromOpenBao (fun _ => []) (fun s => s)
        ⟨str "o", str "p", str "k", [(str "r", str "x")], [], []⟩
        (.ok (some ⟨str "abcdefghij", some [(str "k", str "v")]⟩)) (.error [])
      = .ok (str "v", str "abcdefgh")
    ∧ readFromOpenBao (fun _ => []) (fun s => s)
        ⟨str "o", str "p", str "k", [(str "r", str "x")], [], []⟩
        (.ok (some ⟨str "abc", some [(str "k", str "v")]⟩)) (.error [])
      = .error .panicShortRequestID
    ∧ readFromOpenBao (fun _ => []) (fun s => s)
        ⟨str "o", str "p", str "k", [], [], []⟩
        (.error []) (.ok (some ⟨some ⟨some [(str "k", str "v")], none, []⟩⟩))
      = .ok (str "v", str "1") := by
  refine ⟨?_, ?_, ?_⟩
  · have h := ((C9_dynamic_version_token (fun _ => []) (fun s => s)).1
      ⟨str "o", str "p", str "k", [(str "r", str "x")], [], []⟩
      ⟨str "abcdefghij", some [(str "k", str "v")]⟩ [(str "k", str "v")] (.error [])
      (by decide) rfl).2 (by decide) (str "v") rfl
    exact h
  · exact ((C9_dynamic_version_token (fun _ => []) (fun s => s)).1
      ⟨str "o", str "p", str "k", [(str "r", str "x")], [], []⟩
      ⟨str "abc", some [(str "k", str "v")]⟩ [(str "k", str "v")] (.error [])
      (by decide) rfl).1 (by decide)
  · exact ((C9_dynamic_version_token (fun _ => []) (fun s => s)).2
      ⟨str "o", str "p", str "k", [], [], []⟩ (.error [])
      (.ok (some ⟨some ⟨some [(str "k", str "v")], none, []⟩⟩)) rfl).2
      ⟨some ⟨some [(str "k", str "v")], none, []⟩⟩ ⟨some [(str "k", str "v")], none, []⟩
      [(str "k", str "v")] (str "v") rfl rfl rfl rfl rfl

/-! ## internal/csi/secrets.go — `secretsCache` and `fetchSecret`

`time.Now()` becomes an explicit `Nat` instant parameter; the read/write
lock disappears in the sequential model. -/

structure CacheEntry where
  secret : FetchedSecret
  expiresAt : Nat
deriving DecidableEq

/-- `secretsCache`: the entry map and the configured TTL. -/
structure SecretsCache where
  entries : List (Str × CacheEntry)
  ttl : Nat

/-- `secretsCache.get`: `nil` on a missing key, `nil` when the current
instant is strictly after the entry's expiry (`time.Now().After(...)`),
otherwise the stored secret (lazy expiry check, no sweep). -/
def cacheGet (c : SecretsCache) (now : Nat) (key : Str) : Option FetchedSecret :=
  match assocFind c.entries key with
  | none => none
  | some entry => if now > entry.expiresAt then none else some entry.secret

/-- `secretsCache.set`: always overwrite, with a fresh expiry of
`time.Now().Add(c.ttl)` computed at insertion. -/
def cacheSet (c : SecretsCache) (now : Nat) (key : Str) (secret : FetchedSecret) :
    SecretsCache :=
  { c with entries := assocSet c.entries key ⟨secret, now + c.ttl⟩ }

/-- `SecretsFetcher.cacheKey`: `fmt.Sprintf("%s:%s:%s", path, key, name)`. -/
def cacheKey (obj : SecretObject) : Str :=
  obj.secretPath ++ str ":" ++ obj.secretKey ++ str ":" ++ obj.objectName

/-- `SecretsFetcher.fetchSecret`: serve from the cache when possible,
otherwise read through `readFromOpenBao`, build the `FetchedSecret` with the
parsed file permission, and cache it.  The returned flag records whether the
backend was consulted. -/
def fetchSecret (marshal : List (Str × Str) → Str) (b64 : Str → Str)
    (c : SecretsCache) (now : Nat) (obj : SecretObject)
    (writeOutcome : Except Str (Option BaoWriteResp))
    (readOutcome : Except Str (Option BaoReadResp)) :
    Except FetchErr (FetchedSecret × SecretsCache × Bool) :=
  match cacheGet c now (cacheKey obj) with
  | some cached => .ok (cached, c, false)
  | none =>
    match readFromOpenBao marshal b64 obj writeOutcome readOutcome with
    | .error e => .error e
    | .ok (content, version) =>
      let fetched : FetchedSecret :=
        { objectName := obj.objectName, content := content, version := version,
          mode := parseFilePermission obj.filePermission }
      .ok (fetched, cacheSet c now (cacheKey obj) fetched, true)

lemma assocFind_assocSet_self {α : Type} (m : List (Str × α)) (k : Str) (v : α) :
    assocFind (assocSet m k v) k = some v := by
  induction m with
  | nil => simp [assocSet, assocFind]
  | cons kv t ih =>
    by_cases h : kv.1 = k
    · simp [assocSet, assocFind, h]
    · cases kv with
      | mk k' v' =>
        simp only at h
        simp [assocSet, assocFind, h, ih]

/-- C6: `get` misses exactly on absent or strictly-expired entries and hits
otherwise; `set` overwrites with expiry `now + ttl`; consequently a fetch
that misses and succeeds populates the cache so that any fetch of the same
`(path, field-key, object-name)` at an instant up to `now + ttl` returns the
identical `FetchedSecret` with no backend read regardless of the backend's
behaviour, while after the TTL has elapsed the entry is expired and any
successful fetch consults the backend again. -/
theorem C6_cache_read_through (marshal : List (Str × Str) → Str) (b64 : Str → Str)
    (c : SecretsCache) (now : Nat) (obj : SecretObject)
    (w : Except Str (Option BaoWriteResp)) (r : Except Str (Option BaoReadResp)) :
    (∀ key, assocFind c.entries key = none → cacheGet c now key = none)
    ∧ (∀ key entry, assocFind c.entries key = some entry → entry.expiresAt < now →
        cacheGet c now key = none)
    ∧ (∀ key entry, assocFind c.entries key = some entry → now ≤ entry.expiresAt →
        cacheGet c now key = some entry.secret)
    ∧ (∀ key secret, assocFind (cacheSet c now key secret).entries key
        = some ⟨secret, now + c.ttl⟩)
    ∧ (∀ fetched c1, cacheGet c now (cacheKey obj) = none →
        fetchSecret marshal b64 c now obj w r = .ok (fetched, c1, true) →
        (∀ t1, t1 ≤ now + c.ttl →
          ∀ (w2 : Except Str (Option BaoWriteResp)) (r2 : Except Str (Option BaoReadResp)),
            fetchSecret marshal b64 c1 t1 obj w2 r2 = .ok (fetched, c1, false))
        ∧ (∀ t2, now + c.ttl < t2 → cacheGet c1 t2 (cacheKey obj) = none)) := by
  refine ⟨fun key h => by simp [cacheGet, h],
    fun key entry h hexp => by simp [cacheGet, h, hexp],
    fun key entry h hfresh => by simp [cacheGet, h, Nat.not_lt.mpr hfresh],
    fun key secret => assocFind_assocSet_self c.entries key ⟨secret, now + c.ttl⟩,
    fun fetched c1 hmiss hfetch => ?_⟩
  simp only [fetchSecret, hmiss] at hfetch
  cases hread : readFromOpenBao marshal b64 obj w r with
  | error e => rw [hread] at hfetch; simp at hfetch
  | ok cv =>
    rw [hread] at hfetch
    cases cv with
    | mk content version =>
      simp only [Except.ok.injEq, Prod.mk.injEq] at hfetch
      obtain ⟨hf, hc1, -⟩ := hfetch
      constructor
      · intro t1 ht1 w2 r2
        have hfind : assocFind c1.entries (cacheKey obj)
            = some ⟨fetched, now + c.ttl⟩ := by
          rw [← hc1, ← hf]
          exact assocFind_assocSet_self c.entries (cacheKey obj) _
        have hget : cacheGet c1 t1 (cacheKey obj) = some fetched := by
          simp [cacheGet, hfind, Nat.not_lt.mpr ht1]
        simp [fetchSecret, hget]
      · intro t2 ht2
        have hfind : assocFind c1.entries (cacheKey obj)
            = some ⟨fetched, now + c.ttl⟩ := by
          rw [← hc1, ← hf]
          exact assocFind_assocSet_self c.entries (cacheKey obj) _
        simp [cacheGet, hfind, ht2]

theorem C6_cache_read_through_witness :
    fetchSecret (fun _ => []) (fun s => s) ⟨[⟨str "p:k:o", ⟨⟨str "o", str "v", str "1", 420⟩, 10⟩⟩], 10⟩ 5
        ⟨str "o", str "p", str "k", [], [], []⟩ (.error []) (.error [])
      = .ok (⟨str "o", str "v", str "1", 420⟩,
          ⟨[⟨str "p:k:o", ⟨⟨str "o", str "v", str "1", 420⟩, 10⟩⟩], 10⟩, false)
    ∧ cacheGet ⟨[⟨str "p:k:o", ⟨⟨str "o", str "v", str "1", 420⟩, 10⟩⟩], 10⟩ 11 (str "p:k:o")
      = none := by
  constructor
  · have h := ((C6_cache_read_through (fun _ => []) (fun s => s) ⟨[], 10⟩ 0
        ⟨str "o", str "p", str "k", [], [], []⟩ (.error [])
        (.ok (some ⟨some ⟨some [(str "k", str "v")], none, []⟩⟩))).2.2.2.2
      ⟨str "o", str "v", str "1", 420⟩
      ⟨[⟨str "p:k:o", ⟨⟨str "o", str "v", str "1", 420⟩, 10⟩⟩], 10⟩ rfl (by rfl)).1
      5 (by decide) (.error []) (.error [])
    exact h
  · exact ((C6_cache_read_through (fun _ => []) (fun s => s) ⟨[], 10⟩ 0
        ⟨str "o", str "p", str "k", [], [], []⟩ (.error [])
        (.ok (some ⟨some ⟨some [(str "k", str "v")], none, []⟩⟩))).2.2.2.2
      ⟨str "o", str "v", str "1", 420⟩
      ⟨[⟨str "p:k:o", ⟨⟨str "o", str "v", str "1", 420⟩, 10⟩⟩], 10⟩ rfl (by rfl)).2
      11 (by decide)

/-! ## unnamed/part_007 — `parseMountParams`, `FetchSecrets`, `Provider.Mount` -/

/-- `MountParams`.  `namespaceField` renders Go's `Namespace` (a reserved
word in Lean). -/
structure MountParams where
  roleName : Str
  openBaoAddress : Str
  authMethod : Str
  authMountPath : Str
  namespaceField : Str
  objects : List SecretObject
  audience : Str
deriving DecidableEq

/-- The provider-wide defaults consumed by `parseMountParams`. -/
structure CsiConfig where
  defaultAuthMethod : Str
  defaultRole : Str

/-- `Provider.parseMountParams`: seed the parameters with server defaults,
overlay each attribute that is present, decode the objects list (the
YAML-then-JSON two-step decode of external libraries is the oracle
`decodeObjects`), and validate: a role name and a non-empty object list are
mandatory. -/
def parseMountParams (cfg : CsiConfig) (decodeObjects : Str → Option (List SecretObject))
    (attribs : Option (List (Str × Str))) : Except Str MountParams :=
  match attribs with
  | none => .error (str "attributes are required")
  | some m =>
    let params0 : MountParams :=
      { roleName := cfg.defaultRole, openBaoAddress := [], authMethod := cfg.defaultAuthMethod,
        authMountPath := str "kubernetes", namespaceField := [], objects := [], audience := [] }
    let params1 := match assocFind m (str "roleName") with
      | some v => { params0 with roleName := v } | none => params0
    let params2 := match assocFind m (str "openbaoAddr") with
      | some v => { params1 with openBaoAddress := v } | none => params1
    let params3 := match assocFind m (str "authMethod") with
      | some v => { params2 with authMethod := v } | none => params2
    let params4 := match assocFind m (str "authMountPath") with
      | some v => { params3 with authMountPath := v } | none => params3
    let params5 := match assocFind m (str "namespace") with
      | some v => { params4 with namespaceField := v } | none => params4
    let params6 := match assocFind m (str "audience") with
      | some v => { params5 with audience := v } | none => params5
    let withObjects : Except Str MountParams :=
      match assocFind m (str "objects") with
      | none => .ok params6
      | some objectsStr =>
        match decodeObjects objectsStr with
        | none => .error (str "failed to parse objects")
        | some objs => .ok { params6 with objects := objs }
    match withObjects with
    | .error e => .error e
    | .ok params =>
      if params.roleName = [] then .error (str "roleName is required")
      else if params.objects = [] then .error (str "objects list cannot be empty")
      else .ok params

/-- `pb.File`. -/
structure GoFile where
  path : Str
  mode : Int
  contents : Str
deriving DecidableEq

/-- `pb.MountResponse`: version list, optional protocol error code, files. -/
structure MountResponse where
  objectVersion : List (Str × Str)
  error : Option Str
  files : List GoFile
deriving DecidableEq

/-- The accumulation loop of `FetchSecrets`: successes in order, and the
per-object error messages in order. -/
def fetchSecretsLoop (fetchOne : SecretObject → Except Str FetchedSecret) :
    List SecretObject → List FetchedSecret × List Str
  | [] => ([], [])
  | obj :: rest =>
    let r := fetchSecretsLoop fetchOne rest
    match fetchOne obj with
    | .ok s => (s :: r.1, r.2)
    | .error e => (r.1, (str "failed to fetch " ++ obj.objectName ++ str ": " ++ e) :: r.2)

/-- `SecretsFetcher.FetchSecrets`: fetch every object independently; on any
failure return the partial results together with an aggregate error listing
every failing object.  `fetchOne` is the per-object oracle standing for
`fetchSecret` with its cache and backend state. -/
def FetchSecrets (fetchOne : SecretObject → Except Str FetchedSecret)
    (objects : List SecretObject) : List FetchedSecret × Option Str :=
  let r := fetchSecretsLoop fetchOne objects
  if r.2 = [] then (r.1, none)
  else (r.1, some (r.2.foldl (fun msg e => msg ++ str "\n  - " ++ e)
      (str "some secrets failed to fetch:")))

/-- The attribute-decoding prologue of `Mount`: empty attributes are not
decoded at all (`attribs` stays nil); otherwise the JSON decode (oracle
`attrDecode`, `none` = parse failure) must succeed. -/
def mountAttribs (attributesRaw : Str) (attrDecode : Option (List (Str × Str))) :
    Except Unit (Option (List (Str × Str))) :=
  if attributesRaw = [] then .ok none
  else match attrDecode with
       | none => .error ()
       | some m => .ok (some m)

/-- `Provider.Mount`: decode attributes, parse mount parameters, decode pod
secrets (failure only logs a warning and leaves them nil), authenticate
(oracle `auth`), fetch the secrets, and assemble the response.  The second
component is the Go function's `error` return value, `nil` on every one of
these paths — protocol failures are carried as the response's error code. -/
def Mount (cfg : CsiConfig) (decodeObjects : Str → Option (List SecretObject))
    (attributesRaw : Str) (attrDecode : Option (List (Str × Str)))
    (secretsRaw : Str) (secretsDecode : Option (List (Str × Str)))
    (auth : MountParams → Option (List (Str × Str)) → Except Str Unit)
    (fetchOne : SecretObject → Except Str FetchedSecret) :
    MountResponse × Option Str :=
  match mountAttribs attributesRaw attrDecode with
  | .error _ => (⟨[], some (str "InvalidArgument"), []⟩, none)
  | .ok attribs =>
    match parseMountParams cfg decodeObjects attribs with
    | .error _ => (⟨[], some (str "InvalidArgument"), []⟩, none)
    | .ok params =>
      let secrets : Option (List (Str × Str)) :=
        if secretsRaw = [] then none else secretsDecode
      match auth params secrets with
      | .error _ => (⟨[], some (str "PermissionDenied"), []⟩, none)
      | .ok _ =>
        match FetchSecrets fetchOne params.objects with
        | (_, some _) => (⟨[], some (str "Internal"), []⟩, none)
        | (fetchedSecrets, none) =>
          (⟨fetchedSecrets.map (fun s => (s.objectName, s.version)), none,
            fetchedSecrets.map (fun s => ⟨s.objectName, s.mode, s.content⟩)⟩, none)

/-! ## Branch lemmas for `Mount` -/

section MountLemmas

variable (cfg : CsiConfig) (decodeObjects : Str → Option (List SecretObject))
variable (attributesRaw : Str) (attrDecode : Option (List (Str × Str)))
variable (secretsRaw : Str) (secretsDecode : Option (List (Str × Str)))
variable (auth : MountParams → Option (List (Str × Str)) → Except Str Unit)
variable (fetchOne : SecretObject → Except Str FetchedSecret)

lemma mount_snd_none :
    (Mount cfg decodeObjects attributesRaw attrDecode secretsRaw secretsDecode auth fetchOne).2
      = none := by
  cases hA : mountAttribs attributesRaw attrDecode with
  | error u => simp [Mount, hA]
  | ok attribs =>
    cases hP : parseMountParams cfg decodeObjects attribs with
    | error e => simp [Mount, hA, hP]
    | ok params =>
      cases hAu : auth params (if secretsRaw = [] then none else secretsDecode) with
      | error e => simp [Mount, hA, hP, hAu]
      | ok u =>
        cases hF : FetchSecrets fetchOne params.objects with
        | mk s eo => cases eo <;> simp [Mount, hA, hP, hAu, hF]

lemma mount_bad_attributes (h : mountAttribs attributesRaw attrDecode = .error ()) :
    (Mount cfg decodeObjects attributesRaw attrDecode secretsRaw secretsDecode auth fetchOne).1
      = ⟨[], some (str "InvalidArgument"), []⟩ := by
  simp [Mount, h]

lemma mount_bad_params (attribs : Option (List (Str × Str))) (e : Str)
    (hA : mountAttribs attributesRaw attrDecode = .ok attribs)
    (hP : parseMountParams cfg decodeObjects attribs = .error e) :
    (Mount cfg decodeObjects attributesRaw attrDecode secretsRaw secretsDecode auth fetchOne).1
      = ⟨[], some (str "InvalidArgument"), []⟩ := by
  simp [Mount, hA, hP]

lemma mount_auth_failed (attribs : Option (List (Str × Str))) (params : MountParams) (e : Str)
    (hA : mountAttribs attributesRaw attrDecode = .ok attribs)
    (hP : parseMountParams cfg decodeObjects attribs = .ok params)
    (hAu : auth params (if secretsRaw = [] then none else secretsDecode) = .error e) :
    (Mount cfg decodeObjects attributesRaw attrDecode secretsRaw secretsDecode auth fetchOne).1
      = ⟨[], some (str "PermissionDenied"), []⟩ := by
  simp [Mount, hA, hP, hAu]

lemma mount_fetch_failed (attribs : Option (List (Str × Str))) (params : MountParams)
    (s : List FetchedSecret) (e : Str)
    (hA : mountAttribs attributesRaw attrDecode = .ok attribs)
    (hP : parseMountParams cfg decodeObjects attribs = .ok params)
    (hAu : auth params (if secretsRaw = [] then none else secretsDecode) = .ok ())
    (hF : FetchSecrets fetchOne params.objects = (s, some e)) :
    (Mount cfg decodeObjects attributesRaw attrDecode secretsRaw secretsDecode auth fetchOne).1
      = ⟨[], some (str "Internal"), []⟩ := by
  simp [Mount, hA, hP, hAu, hF]

lemma mount_ok (attribs : Option (List (Str × Str))) (params : MountParams)
    (s : List FetchedSecret)
    (hA : mountAttribs attributesRaw attrDecode = .ok attribs)
    (hP : parseMountParams cfg decodeObjects attribs = .ok params)
    (hAu : auth params (if secretsRaw = [] then none else secretsDecode) = .ok ())
    (hF : FetchSecrets fetchOne params.objects = (s, none)) :
    (Mount cfg decodeObjects attributesRaw attrDecode secretsRaw secretsDecode auth fetchOne).1
      = ⟨s.map (fun x => (x.objectName, x.version)), none,
          s.map (fun x => ⟨x.objectName, x.mode, x.content⟩)⟩ := by
  simp [Mount, hA, hP, hAu, hF]

end MountLemmas

/-- C3: `Mount` always returns a well-formed response with a nil
transport-level error, and the protocol error code is exactly
`InvalidArgument` for undecodable attributes or invalid mount parameters,
`PermissionDenied` for authentication failure, and `Internal` for any
secret-fetch failure; when everything succeeds the error field is empty. -/
theorem C3_mount_error_taxonomy (cfg : CsiConfig)
    (decodeObjects : Str → Option (List SecretObject))
    (attributesRaw : Str) (attrDecode : Option (List (Str × Str)))
    (secretsRaw : Str) (secretsDecode : Option (List (Str × Str)))
    (auth : MountParams → Option (List (Str × Str)) → Except Str Unit)
    (fetchOne : SecretObject → Except Str FetchedSecret) :
    (Mount cfg decodeObjects attributesRaw attrDecode secretsRaw secretsDecode auth fetchOne).2
      = none
    ∧ (mountAttribs attributesRaw attrDecode = .error () →
        (Mount cfg decodeObjects attributesRaw attrDecode secretsRaw secretsDecode auth
            fetchOne).1
          = ⟨[], some (str "InvalidArgument"), []⟩)
    ∧ (∀ attribs e, mountAttribs attributesRaw attrDecode = .ok attribs →
        parseMountParams cfg decodeObjects attribs = .error e →
        (Mount cfg decodeObjects attributesRaw attrDecode secretsRaw secretsDecode auth
            fetchOne).1
          = ⟨[], some (str "InvalidArgument"), []⟩)
    ∧ (∀ attribs params e, mountAttribs attributesRaw attrDecode = .ok attribs →
        parseMountParams cfg decodeObjects attribs = .ok params →
        auth params (if secretsRaw = [] then none else secretsDecode) = .error e →
        (Mount cfg decodeObjects attributesRaw attrDecode secretsRaw secretsDecode auth
            fetchOne).1
          = ⟨[], some (str "PermissionDenied"), []⟩)
    ∧ (∀ attribs params s e, mountAttribs attributesRaw attrDecode = .ok attribs →
        parseMountParams cfg decodeObjects attribs = .ok params →
        auth params (if secretsRaw = [] then none else secretsDecode) = .ok () →
        FetchSecrets fetchOne params.objects = (s, some e) →
        (Mount cfg decodeObjects attributesRaw attrDecode secretsRaw secretsDecode auth
            fetchOne).1
          = ⟨[], some (str "Internal"), []⟩)
    ∧ (∀ attribs params s, mountAttribs attributesRaw attrDecode = .ok attribs →
        parseMountParams cfg decodeObjects attribs = .ok params →
        auth params (if secretsRaw = [] then none else secretsDecode) = .ok () →
        FetchSecrets fetchOne params.objects = (s, none) →
        (Mount cfg decodeObjects attributesRaw attrDecode secretsRaw secretsDecode auth
            fetchOne).1
          = ⟨s.map (fun x => (x.objectName, x.version)), none,
              s.map (fun x => ⟨x.objectName, x.mode, x.content⟩)⟩) :=
  ⟨mount_snd_none cfg decodeObjects attributesRaw attrDecode secretsRaw secretsDecode auth
      fetchOne,
   fun h => mount_bad_attributes cfg decodeObjects attributesRaw attrDecode secretsRaw
      secretsDecode auth fetchOne h,
   fun attribs e hA hP => mount_bad_params cfg decodeObjects attributesRaw attrDecode
      secretsRaw secretsDecode auth fetchOne attribs e hA hP,
   fun attribs params e hA hP hAu => mount_auth_failed cfg decodeObjects attributesRaw
      attrDecode secretsRaw secretsDecode auth fetchOne attribs params e hA hP hAu,
   fun attribs params s e hA hP hAu hF => mount_fetch_failed cfg decodeObjects attributesRaw
      attrDecode secretsRaw secretsDecode auth fetchOne attribs params s e hA hP hAu hF,
   fun attribs params s hA hP hAu hF => mount_ok cfg decodeObjects attributesRaw attrDecode
      secretsRaw secretsDecode auth fetchOne attribs params s hA hP hAu hF⟩

theorem C3_mount_error_taxonomy_witness :
    (Mount ⟨str "kubernetes", str "role"⟩ (fun _ => none) (str "x") none [] none
        (fun _ _ => .ok ()) (fun _ => .error (str "no"))).1
      = ⟨[], some (str "InvalidArgument"), []⟩
    ∧ (Mount ⟨str "kubernetes", str "role"⟩ (fun _ => none) (str "x") none [] none
        (fun _ _ => .ok ()) (fun _ => .error (str "no"))).2 = none :=
  ⟨(C3_mount_error_taxonomy ⟨str "kubernetes", str "role"⟩ (fun _ => none) (str "x") none
      [] none (fun _ _ => .ok ()) (fun _ => .error (str "no"))).2.1 (by rfl),
   (C3_mount_error_taxonomy ⟨str "kubernetes", str "role"⟩ (fun _ => none) (str "x") none
      [] none (fun _ _ => .ok ()) (fun _ => .error (str "no"))).1⟩

/-! ## Lemmas for the partial-failure behaviour of `FetchSecrets` -/

lemma occursIn_self (a : Str) : occursIn a a := ⟨[], [], by simp⟩

lemma occursIn_append_left {e a : Str} (b : Str) (h : occursIn e a) :
    occursIn e (a ++ b) := by
  obtain ⟨p, q, rfl⟩ := h
  exact ⟨p, q ++ b, by simp⟩

lemma occursIn_append_right {e b : Str} (a : Str) (h : occursIn e b) :
    occursIn e (a ++ b) := by
  obtain ⟨p, q, rfl⟩ := h
  exact ⟨a ++ p, q, by simp⟩

/-- Every element of the folded error list occurs in the aggregate message. -/
lemma occursIn_foldl_sep (xs : List Str) :
    ∀ (acc e : Str), (occursIn e acc ∨ e ∈ xs) →
      occursIn e (xs.foldl (fun m x => m ++ str "\n  - " ++ x) acc) := by
  induction xs with
  | nil =>
    intro acc e h
    rcases h with h | h
    · simpa using h
    · simp at h
  | cons x t ih =>
    intro acc e h
    simp only [List.foldl_cons]
    apply ih
    rcases h with h | h
    · exact Or.inl (occursIn_append_left x (occursIn_append_left (str "\n  - ") h))
    · rcases List.mem_cons.mp h with rfl | hm
      · exact Or.inl (occursIn_append_right (acc ++ str "\n  - ") (occursIn_self e))
      · exact Or.inr hm

lemma fetchSecretsLoop_fst (fetchOne : SecretObject → Except Str FetchedSecret) :
    ∀ objects, (fetchSecretsLoop fetchOne objects).1
      = objects.filterMap (fun o => (fetchOne o).toOption) := by
  intro objects
  induction objects with
  | nil => rfl
  | cons o t ih =>
    cases ho : fetchOne o with
    | ok s => simp [fetchSecretsLoop, ho, Except.toOption, ih]
    | error e => simp [fetchSecretsLoop, ho, Except.toOption, ih]

lemma fetchSecretsLoop_errors_nil (fetchOne : SecretObject → Except Str FetchedSecret) :
    ∀ objects, ((fetchSecretsLoop fetchOne objects).2 = []
      ↔ ∀ o ∈ objects, ∀ e, fetchOne o ≠ .error e) := by
  intro objects
  induction objects with
  | nil => simp [fetchSecretsLoop]
  | cons o t ih =>
    cases ho : fetchOne o with
    | ok s =>
      simp only [fetchSecretsLoop, ho, List.mem_cons]
      constructor
      · intro h x hx e
        rcases hx with rfl | hx
        · simp [ho]
        · exact (ih.mp h) x hx e
      · intro h
        exact ih.mpr fun x hx e => h x (Or.inr hx) e
    | error e =>
      simp only [fetchSecretsLoop, ho]
      constructor
      · intro h; simp at h
      · intro h
        exact absurd ho (h o (List.mem_cons_self o t) e)

lemma fetchSecretsLoop_errors_mem (fetchOne : SecretObject → Except Str FetchedSecret)
    (o : SecretObject) (e : Str) :
    ∀ objects, o ∈ objects → fetchOne o = .error e →
      (str "failed to fetch " ++ o.objectName ++ str ": " ++ e)
        ∈ (fetchSecretsLoop fetchOne objects).2 := by
  intro objects
  induction objects with
  | nil => simp
  | cons x t ih =>
    intro hmem he
    rcases List.mem_cons.mp hmem with rfl | hm
    · simp [fetchSecretsLoop, he]
    · cases hx : fetchOne x with
      | ok s => simpa [fetchSecretsLoop, hx] using ih hm he
      | error e2 =>
        simp only [fetchSecretsLoop, hx, List.mem_cons]
        exact Or.inr (ih hm he)

/-- C1 counterexample: three objects are requested, the fetch oracle
succeeds on `"a"` and `"c"` and fails on `"b"`; the claim requires the
`MountResponse` to contain file entries for `"a"` and `"c"` alongside the
aggregate error, but `Mount` discards the partial results: the response
carries only the `Internal` error code and an empty file list. -/
theorem C1_counterexample :
    (Mount ⟨str "kubernetes", str "role"⟩
        (fun _ => some [⟨str "a", str "p", [], [], [], []⟩, ⟨str "b", str "p", [], [], [], []⟩,
                        ⟨str "c", str "p", [], [], [], []⟩])
        (str "x") (some [(str "objects", str "o")]) [] none
        (fun _ _ => .ok ())
        (fun o => if o.objectName = str "b" then .error (str "boom")
                  else .ok ⟨o.objectName, str "data", str "1", 420⟩)).1
      = ⟨[], some (str "Internal"), []⟩
    ∧ (fun (o : SecretObject) =>
        if o.objectName = str "b" then (.error (str "boom") : Except Str FetchedSecret)
        else .ok ⟨o.objectName, str "data", str "1", 420⟩) ⟨str "a", str "p", [], [], [], []⟩
      = .ok ⟨str "a", str "data", str "1", 420⟩ :=
  ⟨by decide, by rfl⟩

/-- C1 (amended): `FetchSecrets` does assemble partial results — its secret
list is exactly the successes, in order, its error is nil exactly when no
fetch failed, and on failure the aggregate message contains a
`failed to fetch <name>: <err>` line for every failing object — but `Mount`
then discards the partial results: whenever the aggregate error is non-nil
the response carries only the `Internal` error code, with no files and no
version entries. -/
theorem C1_partial_results (fetchOne : SecretObject → Except Str FetchedSecret)
    (objects : List SecretObject) :
    (FetchSecrets fetchOne objects).1 = objects.filterMap (fun o => (fetchOne o).toOption)
    ∧ ((FetchSecrets fetchOne objects).2 = none ↔ ∀ o ∈ objects, ∀ e, fetchOne o ≠ .error e)
    ∧ (∀ o ∈ objects, ∀ e, fetchOne o = .error e →
        ∃ agg, (FetchSecrets fetchOne objects).2 = some agg
          ∧ occursIn (str "failed to fetch " ++ o.objectName ++ str ": " ++ e) agg)
    ∧ (∀ cfg decodeObjects attributesRaw attrDecode secretsRaw secretsDecode auth attribs
          params s e,
        mountAttribs attributesRaw attrDecode = .ok attribs →
        parseMountParams cfg decodeObjects attribs = .ok params →
        auth params (if secretsRaw = [] then none else secretsDecode) = .ok () →
        FetchSecrets fetchOne params.objects = (s, some e) →
        (Mount cfg decodeObjects attributesRaw attrDecode secretsRaw secretsDecode auth
            fetchOne).1
          = ⟨[], some (str "Internal"), []⟩) := by
  refine ⟨?_, ?_, ?_, ?_⟩
  · by_cases hnil : (fetchSecretsLoop fetchOne objects).2 = [] <;>
      simp [FetchSecrets, hnil, fetchSecretsLoop_fst]
  · constructor
    · intro h
      by_cases hnil : (fetchSecretsLoop fetchOne objects).2 = []
      · exact (fetchSecretsLoop_errors_nil fetchOne objects).mp hnil
      · simp [FetchSecrets, hnil] at h
    · intro h
      have hnil := (fetchSecretsLoop_errors_nil fetchOne objects).mpr h
      simp [FetchSecrets, hnil]
  · intro o ho e he
    have hmem := fetchSecretsLoop_errors_mem fetchOne o e objects ho he
    have hnil : (fetchSecretsLoop fetchOne objects).2 ≠ [] := by
      intro h
      rw [h] at hmem
      simp at hmem
    refine ⟨(fetchSecretsLoop fetchOne objects).2.foldl
        (fun m x => m ++ str "\n  - " ++ x) (str "some secrets failed to fetch:"),
      ?_, occursIn_foldl_sep _ _ _ (Or.inr hmem)⟩
    simp only [FetchSecrets]
    rw [if_neg hnil]
  · intro cfg decodeObjects attributesRaw attrDecode secretsRaw secretsDecode auth attribs
      params s e hA hP hAu hF
    exact mount_fetch_failed cfg decodeObjects attributesRaw attrDecode secretsRaw
      secretsDecode auth fetchOne attribs params s e hA hP hAu hF

theorem C1_partial_results_witness :
    ∃ agg,
      (FetchSecrets
          (fun o => if o.objectName = str "b" then .error (str "boom")
                    else .ok ⟨o.objectName, str "data", str "1", 420⟩)
          [⟨str "a", str "p", [], [], [], []⟩, ⟨str "b", str "p", [], [], [], []⟩]).2
        = some agg
      ∧ occursIn (str "failed to fetch "
          ++ (⟨str "b", str "p", [], [], [], []⟩ : SecretObject).objectName
          ++ str ": " ++ str "boom") agg :=
  (C1_partial_results
      (fun o => if o.objectName = str "b" then .error (str "boom")
                else .ok ⟨o.objectName, str "data", str "1", 420⟩)
      [⟨str "a", str "p", [], [], [], []⟩, ⟨str "b", str "p", [], [], [], []⟩]).2.2.1
    ⟨str "b", str "p", [], [], [], []⟩ (by simp) (str "boom") (by rfl)

end Kubebao
